import Mathlib

/-!
Verification of the benchmark harness in `src/analysis/benchmark.py`
(repository py-lattix), via a shallow embedding.

Modelling choices:
* Elapsed wall-clock times are nonnegative in reality; we model a single
  execution's duration as a rational number supplied by an oracle (`World.dur`),
  since timing is nondeterministic and the spec only guarantees best-effort
  relative timing.
* A Python statement executed under `timeit` is modelled as a state
  transformer `σ → TRes σ`: it either completes (`TRes.ok`, with the new state
  and the elapsed duration of that single execution) or raises (`TRes.exn`,
  with the state at the point of failure).
* The benchmarked container libraries are external collaborators: per the
  spec they expose only a constructor and optional key-style / dot-style
  accessors.  Each constructed instance is a fresh copy of the fixed nested
  document; whether a given operation raises on a given library is an oracle
  (`World.opRaises`), so all theorems hold for every collaborator behaviour.
* Python's `dict` (used for the `results` mapping) is modelled as an
  insertion-ordered association list, with `setKey` reproducing Python's
  update-in-place-or-append-at-end semantics.
-/

namespace PyLattix

/-- The five measured operations, in the fixed order of the harness. -/
inductive Op where
  | init
  | readK
  | readD
  | writeK
  | writeD
  deriving DecidableEq

/-- The fixed three-level nested document, innermost level. -/
structure L3Doc where
  level3 : Nat
  deriving DecidableEq

/-- Middle level of the nested document. -/
structure L2Doc where
  level2 : L3Doc
  deriving DecidableEq

/-- Outer level of the nested document; a constructed container instance is a
fresh copy of this value (source: `raw_data` and the per-library constructors). -/
structure L1Doc where
  level1 : L2Doc
  deriving DecidableEq

/-- Source: `raw_data = {"level1": {"level2": {"level3": 100}}}`. -/
def raw_data : L1Doc := ⟨⟨⟨100⟩⟩⟩

/-- Read `x["level1"]["level2"]["level3"]` / `x.level1.level2.level3`. -/
def getL3 (x : L1Doc) : Nat := x.level1.level2.level3

/-- Write the innermost value, as done by the timed write statements. -/
def setL3 (_x : L1Doc) (v : Nat) : L1Doc := ⟨⟨⟨v⟩⟩⟩

/-- Source: `ITER_N = 100_000`. -/
def ITER_N : Nat := 100000

/-- Outcome of a single execution of a timed statement on state `σ`:
either it completes with the new state and elapsed duration, or it raises,
leaving the state it had reached. -/
inductive TRes (σ : Type) where
  | ok (s : σ) (t : ℚ)
  | exn (s : σ)

/-- The state carried by an execution outcome. -/
def TRes.state {σ : Type} : TRes σ → σ
  | TRes.ok s _ => s
  | TRes.exn s => s

/-- The no-op setup statement (Python `setup="pass"`). -/
def noopStmt {σ : Type} : σ → TRes σ := fun s => TRes.ok s 0

/-- `timeit.Timer(...).timeit(number=n)`: execute `stmt` `n` times, summing the
elapsed durations; the first raise aborts the repetition and propagates. -/
def repeatStmt {σ : Type} (stmt : σ → TRes σ) : Nat → σ → TRes σ
  | 0, s => TRes.ok s 0
  | n + 1, s =>
    match stmt s with
    | TRes.ok s1 t =>
      match repeatStmt stmt n s1 with
      | TRes.ok s2 t2 => TRes.ok s2 (t + t2)
      | TRes.exn s2 => TRes.exn s2
    | TRes.exn s1 => TRes.exn s1

/-- Source: `run(stmt, setup="pass", globals=None)` — run `setup` once, then
`stmt` `ITER_N` times via `timeit`; any exception is caught and converted to
the sentinel `None` (here `none`).  The second component is the final state of
the binding context (mutations performed by the statement persist, since the
context holds live object references). -/
def run {σ : Type} (stmt setup : σ → TRes σ) (s : σ) : Option ℚ × σ :=
  match setup s with
  | TRes.ok s1 _ =>
    match repeatStmt stmt ITER_N s1 with
    | TRes.ok s2 t => (some t, s2)
    | TRes.exn s2 => (none, s2)
  | TRes.exn s1 => (none, s1)

/-- Whether `n` repetitions of `stmt` from `s` raise at some point
(defined independently of `repeatStmt`). -/
def repeatRaises {σ : Type} (stmt : σ → TRes σ) : Nat → σ → Bool
  | 0, _ => false
  | n + 1, s =>
    match stmt s with
    | TRes.ok s1 _ => repeatRaises stmt n s1
    | TRes.exn _ => true

/-- Total elapsed duration of `n` successful repetitions of `stmt` from `s`. -/
def repeatElapsed {σ : Type} (stmt : σ → TRes σ) : Nat → σ → ℚ
  | 0, _ => 0
  | n + 1, s =>
    match stmt s with
    | TRes.ok s1 t => t + repeatElapsed stmt n s1
    | TRes.exn _ => 0

/-- Final state after `n` repetitions of `stmt` from `s` (state at the raise
point if one raises). -/
def repeatFinal {σ : Type} (stmt : σ → TRes σ) : Nat → σ → σ
  | 0, s => s
  | n + 1, s =>
    match stmt s with
    | TRes.ok s1 _ => repeatFinal stmt n s1
    | TRes.exn s1 => s1

/-- State after running the setup statement once. -/
def postSetup {σ : Type} (setup : σ → TRes σ) (s : σ) : σ :=
  (setup s).state

/-- Whether the whole `run` invocation encounters an exception: either the
setup raises, or some repetition of the operation statement raises. -/
def execRaises {σ : Type} (stmt setup : σ → TRes σ) (s : σ) : Bool :=
  match setup s with
  | TRes.ok s1 _ => repeatRaises stmt ITER_N s1
  | TRes.exn _ => true

/-- Which optional collaborator libraries are importable in the current
process (source: the `try: import ... except ImportError:` guards). -/
structure Avail where
  lattix : Bool
  easydict : Bool
  addict : Bool
  box : Bool
  treedict : Bool
  dotted_dict : Bool
  attrs : Bool
  deriving DecidableEq

/-- The environment a run executes in: library availability, whether a given
library constructor raises when invoked, whether a given timed operation on a
given library instance raises (collaborator behaviour is opaque), and the
duration oracle for one execution of a given statement. -/
structure World where
  avail : Avail
  ctorRaises : String → Bool
  opRaises : String → Op → Bool
  dur : String → Op → ℚ

/-- Whether the name bound by the import guards refers to an available
library in this world (`"dict"` is the builtin, always available). -/
def availOf (a : Avail) (n : String) : Bool :=
  if n = "dict" then true
  else if n = "Lattix" then a.lattix
  else if n = "EasyDict" then a.easydict
  else if n = "Addict" then a.addict
  else if n = "Box" then a.box
  else if n = "TreeDict" then a.treedict
  else if n = "Attrs" then a.attrs
  else if n = "DottedDict" then a.dotted_dict
  else false

/-- Python `dict.get` on an insertion-ordered association list. -/
def lookupKey {α : Type} : List (String × α) → String → Option α
  | [], _ => none
  | (k1, v1) :: rest, k => if k1 = k then some v1 else lookupKey rest k

/-- Python `d[k] = v` on an insertion-ordered association list: update the
existing entry in place, or append a new one at the end. -/
def setKey {α : Type} : List (String × α) → String → α → List (String × α)
  | [], k, v => [(k, v)]
  | (k1, v1) :: rest, k, v =>
    if k1 = k then (k, v) :: rest else (k1, v1) :: setKey rest k v

/-- The module-level `instances` dictionary: implementation name to its
long-lived constructed instance. -/
abbrev Insts := List (String × L1Doc)

/-- One step of building `instances`: `if Lib: instances[name] = Lib(raw_data)`.
The construction is NOT wrapped in any exception handler in the source, so a
raising constructor propagates and aborts the whole process. -/
def tryAdd (availB raisesB : Bool) (name : String) (cur : Insts) :
    Except String Insts :=
  if availB then
    if raisesB then Except.error ("exception: " ++ name ++ "(raw_data)")
    else Except.ok (cur ++ [(name, raw_data)])
  else Except.ok cur

/-- Source: the module-level `instances` building block (lines 92–110).
`dict` is added unconditionally from a fresh literal.  The `Attrs` guard is
`if AttrsL1:`, but when the `attrs` import failed only `define` was set to
`None` and `AttrsL1` was never defined, so the guard itself raises
`NameError` and aborts the process. -/
def buildInstances (w : World) : Except String Insts := do
  let i0 : Insts := [("dict", L1Doc.mk (L2Doc.mk (L3Doc.mk 100)))]
  let i1 ← tryAdd w.avail.lattix (w.ctorRaises "Lattix") "Lattix" i0
  let i2 ← tryAdd w.avail.easydict (w.ctorRaises "EasyDict") "EasyDict" i1
  let i3 ← tryAdd w.avail.addict (w.ctorRaises "Addict") "Addict" i2
  let i4 ← tryAdd w.avail.box (w.ctorRaises "Box") "Box" i3
  let i5 ← tryAdd w.avail.treedict (w.ctorRaises "TreeDict") "TreeDict" i4
  let i6 ←
    if w.avail.attrs then tryAdd true (w.ctorRaises "Attrs") "Attrs" i5
    else Except.error "NameError: name AttrsL1 is not defined"
  tryAdd w.avail.dotted_dict (w.ctorRaises "DottedDict") "DottedDict" i6

/-- One registry entry of `libs`: `(class name, init statement, support key,
support dot)`. -/
structure LibEntry where
  name : String
  init_stmt : String
  support_key : Bool
  support_dot : Bool
  deriving DecidableEq

/-- Source: the `libs` registry list (lines 112–123). -/
def libs : List LibEntry :=
  [⟨"dict", "dict(raw_data)", true, false⟩,
   ⟨"Lattix", "Lattix(raw_data, lazy_create=True)", true, true⟩,
   ⟨"EasyDict", "EasyDict(raw_data)", true, true⟩,
   ⟨"Addict", "Addict(raw_data)", true, true⟩,
   ⟨"Box", "Box(raw_data)", true, true⟩,
   ⟨"TreeDict", "TreeDict(raw_data)", true, false⟩,
   ⟨"Attrs", "AttrsL1(level1=AttrsL2(level2=AttrsL3(level3=100)))", false, true⟩,
   ⟨"DottedDict", "DottedDict(raw_data)", true, true⟩]

/-- Whether executing `init_stmt` for the named implementation raises:
`dict(raw_data)` never raises; for an unavailable library the name is `None`
(or undefined), so calling it raises; otherwise the constructor's own
behaviour decides. -/
def initStmtRaises (w : World) (name : String) : Bool :=
  if name = "dict" then false
  else !availOf w.avail name || w.ctorRaises name

/-- Semantics of the timed `init_stmt`: runs against module globals; the
constructed objects are discarded, so the state is `Unit`. -/
def initStmtSem (w : World) (name : String) : Unit → TRes Unit := fun _ =>
  if initStmtRaises w name then TRes.exn () else TRes.ok () (w.dur name Op.init)

/-- Semantics of one execution of a timed read/write statement against the
long-lived instance `obj`:
reads leave the state unchanged, `obj[...] = 200` sets the innermost value to
`200`, `obj.l1.l2.l3 = 300` sets it to `300`; a raising operation leaves the
state unchanged. -/
def opStmt (w : World) (name : String) (op : Op) : L1Doc → TRes L1Doc := fun s =>
  if w.opRaises name op then TRes.exn s
  else
    match op with
    | Op.init => TRes.ok s (w.dur name op)
    | Op.readK => TRes.ok s (w.dur name op)
    | Op.readD => TRes.ok s (w.dur name op)
    | Op.writeK => TRes.ok (setL3 s 200) (w.dur name op)
    | Op.writeD => TRes.ok (setL3 s 300) (w.dur name op)

/-- An observable timing event: which implementation, which operation, and —
for a read that completed — the innermost value it observed. -/
structure Event where
  lib : String
  op : Op
  observed : Option Nat
  deriving DecidableEq

/-- Time one read/write operation on the live instance: invoke the timing
primitive, record the measurement, the (possibly mutated) instance, and the
observation event. -/
def timedOp (w : World) (name : String) (op : Op) (s : L1Doc) :
    Option ℚ × L1Doc × Event :=
  let r := run (opStmt w name op) noopStmt s
  let obs : Option Nat :=
    match op with
    | Op.readK => if r.1.isSome then some (getL3 s) else none
    | Op.readD => if r.1.isSome then some (getL3 s) else none
    | _ => none
  (r.1, r.2, ⟨name, op, obs⟩)

/-- The `results` dictionary literal: five keys, all initially `None`,
in insertion order. -/
def initResults : List (String × Option ℚ) :=
  [("init", none), ("read_k", none), ("read_d", none),
   ("write_k", none), ("write_d", none)]

/-- One report row: implementation name plus its ordered results mapping. -/
structure Row where
  name : String
  results : List (String × Option ℚ)

/-- Source: one iteration of the `__main__` loop (lines 135–182): skip or
process one registry entry, producing the report row, the ordered trace of
timing events, and the updated instances map (writes mutate the shared
long-lived instance in place). -/
def processLib (w : World) (instances : Insts) (e : LibEntry) :
    Option (Row × List Event × Insts) :=
  if (lookupKey instances e.name).isNone && e.name != "dict" && e.name != "Attrs"
  then none
  else
    let initRun := run (initStmtSem w e.name) noopStmt ()
    let res1 := setKey initResults "init" initRun.1
    let evs1 : List Event := [⟨e.name, Op.init, none⟩]
    match lookupKey instances e.name with
    | none => some (⟨e.name, res1⟩, evs1, instances)
    | some o0 =>
      let s1 :=
        if e.support_key then
          let t := timedOp w e.name Op.readK o0
          (setKey res1 "read_k" t.1, t.2.1, evs1 ++ [t.2.2])
        else (res1, o0, evs1)
      let s2 :=
        if e.support_dot then
          let t := timedOp w e.name Op.readD s1.2.1
          (setKey s1.1 "read_d" t.1, t.2.1, s1.2.2 ++ [t.2.2])
        else s1
      let s3 :=
        if e.support_key then
          let t := timedOp w e.name Op.writeK s2.2.1
          (setKey s2.1 "write_k" t.1, t.2.1, s2.2.2 ++ [t.2.2])
        else s2
      let s4 :=
        if e.support_dot then
          let t := timedOp w e.name Op.writeD s3.2.1
          (setKey s3.1 "write_d" t.1, t.2.1, s3.2.2 ++ [t.2.2])
        else s3
      some (⟨e.name, s4.1⟩, s4.2.2, setKey instances e.name s4.2.1)

/-- The `__main__` loop over the registry: accumulate rows and events in
registry order, threading the instances map. -/
def runLoop (w : World) (instances : Insts) :
    List LibEntry → List Row × List Event × Insts
  | [] => ([], [], instances)
  | e :: rest =>
    match processLib w instances e with
    | none => runLoop w instances rest
    | some (row, evs, insts1) =>
      let t := runLoop w insts1 rest
      (row :: t.1, evs ++ t.2.1, t.2.2)

/-- The whole process: module-level instance building (which may abort the
process with an uncaught exception), then the benchmark loop. -/
def runBenchmark (w : World) : Except String (List Row × List Event × Insts) :=
  match buildInstances w with
  | Except.error m => Except.error m
  | Except.ok insts => Except.ok (runLoop w insts libs)

/-- Python `f"{s:<w}"`: left-justify in a field of width `w`. -/
def padRight (s : String) (w : Nat) : String :=
  s ++ String.mk (List.replicate (w - s.length) ' ')

/-- Exactly five fractional digits of `n` (hundred-thousandths), zero-padded. -/
def frac5 (n : Nat) : String :=
  String.mk [Nat.digitChar (n / 10000 % 10), Nat.digitChar (n / 1000 % 10),
             Nat.digitChar (n / 100 % 10), Nat.digitChar (n / 10 % 10),
             Nat.digitChar (n % 10)]

/-- Python `f"{val:.5f}"`: fixed-point rendering with five fractional digits. -/
def formatFixed5 (q : ℚ) : String :=
  let z : ℤ := round (q * 100000)
  let m : Nat := z.natAbs
  (if z < 0 then "-" else "") ++ toString (m / 100000) ++ "." ++ frac5 (m % 100000)

/-- Source: `format_res` (lines 85–86): `None` renders as the literal `N/A`
marker, a present value as a 5-decimal-place number. -/
def format_res (val : Option ℚ) : String :=
  match val with
  | none => "N/A"
  | some q => formatFixed5 q

/-- Source: the column header printed before the table (lines 130–133). -/
def headerLine : String :=
  padRight "Library" 12 ++ " | " ++ padRight "Init" 8 ++ " | " ++
  padRight "Read(K)" 8 ++ " | " ++ padRight "Read(D)" 8 ++ " | " ++
  padRight "Write(K)" 8 ++ " | " ++ padRight "Write(D)" 8

/-- The value stored in a row's results mapping under key `k` (the cell is
`None`, i.e. N/A, if never set). -/
def rowCell (r : Row) (k : String) : Option ℚ :=
  match lookupKey r.results k with
  | some v => v
  | none => none

/-- Source: the final `print` of the loop (lines 175–182): one rendered row. -/
def renderRow (r : Row) : String :=
  padRight r.name 12 ++ " | " ++
  padRight (format_res (rowCell r "init")) 8 ++ " | " ++
  padRight (format_res (rowCell r "read_k")) 8 ++ " | " ++
  padRight (format_res (rowCell r "read_d")) 8 ++ " | " ++
  padRight (format_res (rowCell r "write_k")) 8 ++ " | " ++
  padRight (format_res (rowCell r "write_d")) 8

/-- The event trace of one (possibly skipped) loop iteration. -/
def traceEvents (out : Option (Row × List Event × Insts)) : List Event :=
  match out with
  | none => []
  | some (_, evs, _) => evs

/-- The report row of one loop iteration, if the entry was not skipped. -/
def rowOf (out : Option (Row × List Event × Insts)) : Option Row :=
  match out with
  | none => none
  | some (r, _, _) => r

/-- A cell of one loop iteration's row (N/A when the entry was skipped). -/
def cellOf (out : Option (Row × List Event × Insts)) (k : String) : Option ℚ :=
  match out with
  | none => none
  | some (r, _, _) => rowCell r k

/-- The instances map after one loop iteration (`dflt` when skipped, since a
skipped iteration leaves the map untouched). -/
def instsAfter (out : Option (Row × List Event × Insts)) (dflt : Insts) : Insts :=
  match out with
  | none => dflt
  | some (_, _, i) => i

/-- The list of result keys of one iteration's row (empty when skipped). -/
def rowKeyList (out : Option (Row × List Event × Insts)) : List String :=
  match out with
  | none => []
  | some (r, _, _) => r.results.map Prod.fst

/-- All timing events of a full benchmark run (empty if the process aborted). -/
def benchEvents (w : World) : List Event :=
  match runBenchmark w with
  | Except.ok t => t.2.1
  | Except.error _ => []

/-- All report rows of a full benchmark run (empty if the process aborted). -/
def benchRows (w : World) : List Row :=
  match runBenchmark w with
  | Except.ok t => t.1
  | Except.error _ => []

/-- The operations that are timed reads. -/
def isRead (o : Op) : Bool :=
  match o with
  | Op.readK => true
  | Op.readD => true
  | _ => false

/-- The operations that are timed writes. -/
def isWrite (o : Op) : Bool :=
  match o with
  | Op.writeK => true
  | Op.writeD => true
  | _ => false

/-- No read occurs at or after the first write in the operation sequence. -/
def noReadAfterWrite (l : List Op) : Bool :=
  (l.dropWhile (fun o => !isWrite o)).all (fun o => !isRead o)

/-- A benign world: every library importable, no constructor or operation
raises, all durations zero. -/
def w0 : World :=
  ⟨⟨true, true, true, true, true, true, true⟩,
   fun _ => false, fun _ _ => false, fun _ _ => 0⟩

/-- A world where every library is importable but the Lattix constructor
raises on every invocation. -/
def lattixCrashWorld : World :=
  ⟨⟨true, true, true, true, true, true, true⟩,
   fun n => n == "Lattix", fun _ _ => false, fun _ _ => 0⟩

/-- A world where the optional `attrs` library is not importable (all other
libraries are importable and nothing raises). -/
def attrsMissingWorld : World :=
  ⟨⟨true, true, true, true, true, true, false⟩,
   fun _ => false, fun _ _ => false, fun _ _ => 0⟩

/-- The registry entry for EasyDict (supports both access styles). -/
def easyEntry : LibEntry := ⟨"EasyDict", "EasyDict(raw_data)", true, true⟩

/-- The registry entry for Attrs (dot-style only). -/
def attrsEntry : LibEntry :=
  ⟨"Attrs", "AttrsL1(level1=AttrsL2(level2=AttrsL3(level3=100)))", false, true⟩

/-- The registry entry for the builtin dict (key-style only). -/
def dictEntry : LibEntry := ⟨"dict", "dict(raw_data)", true, false⟩

/-- The registry entry for Lattix. -/
def lattixEntry : LibEntry := ⟨"Lattix", "Lattix(raw_data, lazy_create=True)", true, true⟩

/-- A one-implementation instances map holding a fresh EasyDict instance. -/
def demoInsts1 : Insts := [("EasyDict", raw_data)]

/-- A two-implementation instances map (dict and Lattix). -/
def demoInsts2 : Insts := [("dict", raw_data), ("Lattix", raw_data)]

theorem repeatStmt_of_not_raises {σ : Type} (stmt : σ → TRes σ) :
    ∀ (n : Nat) (s : σ), repeatRaises stmt n s = false →
      repeatStmt stmt n s = TRes.ok (repeatFinal stmt n s) (repeatElapsed stmt n s) := by
  intro n
  induction n with
  | zero => intro s _; simp [repeatStmt, repeatFinal, repeatElapsed]
  | succ n ih =>
    intro s h
    simp only [repeatRaises] at h
    simp only [repeatStmt, repeatFinal, repeatElapsed]
    cases hs : stmt s with
    | ok s1 t =>
      rw [hs] at h
      dsimp only at h ⊢
      rw [ih s1 h]
    | exn s1 =>
      rw [hs] at h
      exact absurd h (by simp)

theorem repeatStmt_of_raises {σ : Type} (stmt : σ → TRes σ) :
    ∀ (n : Nat) (s : σ), repeatRaises stmt n s = true →
      repeatStmt stmt n s = TRes.exn (repeatFinal stmt n s) := by
  intro n
  induction n with
  | zero => intro s h; simp [repeatRaises] at h
  | succ n ih =>
    intro s h
    simp only [repeatRaises] at h
    simp only [repeatStmt, repeatFinal]
    cases hs : stmt s with
    | ok s1 t =>
      rw [hs] at h
      dsimp only at h ⊢
      rw [ih s1 h]
    | exn s1 => rfl

/-- Characterization of the timing primitive: the sentinel `none` is returned
exactly when the execution raised, and otherwise the result is the total
elapsed duration of the fixed `ITER_N` repetitions. -/
theorem run_eq_ite {σ : Type} (stmt setup : σ → TRes σ) (s : σ) :
    (run stmt setup s).1 =
      if execRaises stmt setup s then none
      else some (repeatElapsed stmt ITER_N (postSetup setup s)) := by
  unfold run execRaises postSetup
  cases hs : setup s with
  | ok s1 t =>
    simp only [TRes.state]
    cases hr : repeatRaises stmt ITER_N s1 with
    | false =>
      rw [repeatStmt_of_not_raises stmt ITER_N s1 hr]
      simp
    | true =>
      rw [repeatStmt_of_raises stmt ITER_N s1 hr]
      simp
  | exn s1 => simp

theorem lookupKey_setKey_ne {α : Type} (l : List (String × α)) (k k' : String)
    (v : α) (h : k' ≠ k) : lookupKey (setKey l k v) k' = lookupKey l k' := by
  induction l with
  | nil => simp [setKey, lookupKey, if_neg (Ne.symm h)]
  | cons p rest ih =>
    obtain ⟨k1, v1⟩ := p
    by_cases h1 : k1 = k
    · subst h1
      simp [setKey, lookupKey, if_neg (Ne.symm h)]
    · simp only [setKey, if_neg h1]
      by_cases h2 : k1 = k'
      · simp [lookupKey, if_pos h2]
      · simp [lookupKey, if_neg h2, ih]

theorem setKey_keys {α : Type} (l : List (String × α)) (k : String) (v : α)
    (h : k ∈ l.map Prod.fst) : (setKey l k v).map Prod.fst = l.map Prod.fst := by
  induction l with
  | nil => simp at h
  | cons p rest ih =>
    obtain ⟨k1, v1⟩ := p
    by_cases h1 : k1 = k
    · subst h1; simp [setKey]
    · simp only [List.map_cons, List.mem_cons] at h
      rcases h with h | h
      · exact absurd h.symm h1
      · simp [setKey, if_neg h1, ih h]

theorem repeatStmt_state_preserve {σ : Type} (stmt : σ → TRes σ)
    (hp : ∀ s, (stmt s).state = s) : ∀ (n : Nat) (s : σ), (repeatStmt stmt n s).state = s := by
  intro n
  induction n with
  | zero => intro s; rfl
  | succ n ih =>
    intro s
    have hs := hp s
    simp only [repeatStmt]
    cases h1 : stmt s with
    | ok s1 t =>
      rw [h1] at hs
      simp only [TRes.state] at hs
      subst hs
      dsimp only
      have h2 := ih s1
      cases h3 : repeatStmt stmt n s1 with
      | ok s2 t2 => rw [h3] at h2; simpa [TRes.state] using h2
      | exn s2 => rw [h3] at h2; simpa [TRes.state] using h2
    | exn s1 =>
      rw [h1] at hs
      simpa [TRes.state] using hs

theorem run_state_preserve {σ : Type} (stmt : σ → TRes σ)
    (hp : ∀ s, (stmt s).state = s) (s : σ) : (run stmt noopStmt s).2 = s := by
  have h := repeatStmt_state_preserve stmt hp ITER_N s
  simp only [run, noopStmt]
  cases h1 : repeatStmt stmt ITER_N s with
  | ok s2 t => rw [h1] at h; simpa [TRes.state] using h
  | exn s2 => rw [h1] at h; simpa [TRes.state] using h

theorem opStmt_readK_state (w : World) (name : String) (s : L1Doc) :
    (opStmt w name Op.readK s).state = s := by
  simp only [opStmt]
  split <;> rfl

theorem opStmt_readD_state (w : World) (name : String) (s : L1Doc) :
    (opStmt w name Op.readD s).state = s := by
  simp only [opStmt]
  split <;> rfl

theorem run_readK_state (w : World) (name : String) (s : L1Doc) :
    (run (opStmt w name Op.readK) noopStmt s).2 = s :=
  run_state_preserve _ (fun s' => opStmt_readK_state w name s') s

theorem run_readD_state (w : World) (name : String) (s : L1Doc) :
    (run (opStmt w name Op.readD) noopStmt s).2 = s :=
  run_state_preserve _ (fun s' => opStmt_readD_state w name s') s

theorem traceEvents_processLib (w : World) (instances : Insts) (e : LibEntry)
    (o : L1Doc) (h : lookupKey instances e.name = some o) :
    (traceEvents (processLib w instances e)).map Event.op =
      [Op.init] ++ (if e.support_key then [Op.readK] else []) ++
      (if e.support_dot then [Op.readD] else []) ++
      (if e.support_key then [Op.writeK] else []) ++
      (if e.support_dot then [Op.writeD] else []) := by
  cases hk : e.support_key <;> cases hd : e.support_dot <;>
    simp [processLib, h, hk, hd, traceEvents, timedOp]

theorem ite_obs_ok (b : Bool) (v : Nat) :
    (((if b then some v else none) == (none : Option Nat)) ||
      ((if b then some v else none) == some v)) = true := by
  cases b <;> simp

theorem traceEvents_observed (w : World) (instances : Insts) (e : LibEntry)
    (o : L1Doc) (h : lookupKey instances e.name = some o) :
    (traceEvents (processLib w instances e)).all
      (fun ev => !isRead ev.op || (ev.observed == none) ||
        (ev.observed == some (getL3 o))) = true := by
  cases hk : e.support_key <;> cases hd : e.support_dot <;>
    simp [processLib, h, hk, hd, traceEvents, timedOp, isRead,
      run_readK_state, run_readD_state, ite_obs_ok]

theorem processLib_skip (w : World) (instances : Insts) (e : LibEntry)
    (h : lookupKey instances e.name = none)
    (h1 : e.name ≠ "dict") (h2 : e.name ≠ "Attrs") :
    processLib w instances e = none := by
  simp [processLib, h, h1, h2]

theorem processLib_no_instance (w : World) (instances : Insts) (e : LibEntry)
    (h : lookupKey instances e.name = none)
    (hn : e.name = "dict" ∨ e.name = "Attrs") :
    processLib w instances e =
      some (⟨e.name, setKey initResults "init"
              (run (initStmtSem w e.name) noopStmt ()).1⟩,
            [⟨e.name, Op.init, none⟩], instances) := by
  rcases hn with hn | hn <;> (rw [hn] at h; simp [processLib, hn, h])

theorem processLib_cells_no_key (w : World) (instances : Insts) (e : LibEntry)
    (hk : e.support_key = false) :
    cellOf (processLib w instances e) "read_k" = none ∧
      cellOf (processLib w instances e) "write_k" = none := by
  cases h : lookupKey instances e.name with
  | none =>
    by_cases h1 : e.name = "dict" ∨ e.name = "Attrs"
    · rw [processLib_no_instance w instances e h h1]
      constructor <;> rfl
    · push_neg at h1
      rw [processLib_skip w instances e h h1.1 h1.2]
      constructor <;> rfl
  | some o =>
    cases hd : e.support_dot <;>
      (constructor <;> simp [processLib, h, hk, hd, cellOf, rowCell, timedOp,
        setKey, initResults, lookupKey])

theorem processLib_cells_no_dot (w : World) (instances : Insts) (e : LibEntry)
    (hd : e.support_dot = false) :
    cellOf (processLib w instances e) "read_d" = none ∧
      cellOf (processLib w instances e) "write_d" = none := by
  cases h : lookupKey instances e.name with
  | none =>
    by_cases h1 : e.name = "dict" ∨ e.name = "Attrs"
    · rw [processLib_no_instance w instances e h h1]
      constructor <;> rfl
    · push_neg at h1
      rw [processLib_skip w instances e h h1.1 h1.2]
      constructor <;> rfl
  | some o =>
    cases hk : e.support_key <;>
      (constructor <;> simp [processLib, h, hk, hd, cellOf, rowCell, timedOp,
        setKey, initResults, lookupKey])

theorem processLib_keys (w : World) (instances : Insts) (e : LibEntry) :
    processLib w instances e = none ∨
      rowKeyList (processLib w instances e) =
        ["init", "read_k", "read_d", "write_k", "write_d"] := by
  cases h : lookupKey instances e.name with
  | none =>
    by_cases h1 : e.name = "dict" ∨ e.name = "Attrs"
    · right
      rw [processLib_no_instance w instances e h h1]
      rfl
    · left
      push_neg at h1
      exact processLib_skip w instances e h h1.1 h1.2
  | some o =>
    right
    cases hk : e.support_key <;> cases hd : e.support_dot <;>
      simp [processLib, h, hk, hd, rowKeyList, timedOp, setKey, initResults]

theorem processLib_frame (w : World) (instances : Insts) (e : LibEntry)
    (n : String) (hn : n ≠ e.name) :
    lookupKey (instsAfter (processLib w instances e) instances) n =
      lookupKey instances n := by
  cases h : lookupKey instances e.name with
  | none =>
    by_cases h1 : e.name = "dict" ∨ e.name = "Attrs"
    · rw [processLib_no_instance w instances e h h1]; rfl
    · push_neg at h1
      rw [processLib_skip w instances e h h1.1 h1.2]; rfl
  | some o =>
    cases hk : e.support_key <;> cases hd : e.support_dot <;>
      simp [processLib, h, hk, hd, instsAfter, lookupKey_setKey_ne _ _ _ _ hn]

theorem lookupKey_mem {α : Type} (l : List (String × α)) (k : String) (v : α)
    (h : lookupKey l k = some v) : (k, v) ∈ l := by
  induction l with
  | nil => simp [lookupKey] at h
  | cons p rest ih =>
    obtain ⟨k1, v1⟩ := p
    by_cases h1 : k1 = k
    · subst h1
      simp [lookupKey] at h
      subst h
      exact List.mem_cons_self _ _
    · simp only [lookupKey, if_neg h1] at h
      exact List.mem_cons_of_mem _ (ih h)

theorem processLib_no_read_after_write (w : World) (instances : Insts)
    (e : LibEntry) :
    noReadAfterWrite ((traceEvents (processLib w instances e)).map Event.op)
      = true := by
  cases h : lookupKey instances e.name with
  | none =>
    by_cases h1 : e.name = "dict" ∨ e.name = "Attrs"
    · rw [processLib_no_instance w instances e h h1]
      rfl
    · push_neg at h1
      rw [processLib_skip w instances e h h1.1 h1.2]
      rfl
  | some o =>
    rw [traceEvents_processLib w instances e o h]
    cases hk : e.support_key <;> cases hd : e.support_dot <;> simp <;> decide

theorem runLoop_keys (w : World) :
    ∀ (entries : List LibEntry) (instances : Insts),
      ((runLoop w instances entries).1).all
        (fun r => r.results.map Prod.fst ==
          ["init", "read_k", "read_d", "write_k", "write_d"]) = true := by
  intro entries
  induction entries with
  | nil => intro instances; rfl
  | cons e rest ih =>
    intro instances
    simp only [runLoop]
    cases hp : processLib w instances e with
    | none => exact ih instances
    | some t =>
      obtain ⟨row, evs, insts1⟩ := t
      dsimp only
      rw [List.all_cons]
      have hkeys : row.results.map Prod.fst =
          ["init", "read_k", "read_d", "write_k", "write_d"] := by
        rcases processLib_keys w instances e with hnone | hfive
        · rw [hnone] at hp; exact absurd hp (by simp)
        · rw [hp] at hfive
          exact hfive
      rw [hkeys]
      simp only [beq_self_eq_true, Bool.true_and]
      exact ih insts1

theorem runLoop_observed (w : World) :
    ∀ (entries : List LibEntry) (instances : Insts),
      (entries.map LibEntry.name).Nodup →
      (∀ e ∈ entries, ∀ o, lookupKey instances e.name = some o → getL3 o = 100) →
      ((runLoop w instances entries).2.1).all
        (fun ev => !isRead ev.op || (ev.observed == none) ||
          (ev.observed == some 100)) = true := by
  intro entries
  induction entries with
  | nil => intro instances _ _; rfl
  | cons e rest ih =>
    intro instances hnd hv
    have hnd1 : (rest.map LibEntry.name).Nodup := (List.nodup_cons.mp hnd).2
    have hne : e.name ∉ rest.map LibEntry.name := (List.nodup_cons.mp hnd).1
    simp only [runLoop]
    cases hp : processLib w instances e with
    | none =>
      exact ih instances hnd1 (fun e' he' => hv e' (List.mem_cons_of_mem _ he'))
    | some t =>
      obtain ⟨row, evs, insts1⟩ := t
      dsimp only
      rw [List.all_append]
      have hrest : ((runLoop w insts1 rest).2.1).all
          (fun ev => !isRead ev.op || (ev.observed == none) ||
            (ev.observed == some 100)) = true := by
        apply ih insts1 hnd1
        intro e' he' o hlk
        have hne' : e'.name ≠ e.name := by
          intro hcontra
          exact hne (hcontra ▸ List.mem_map_of_mem LibEntry.name he')
        have hframe := processLib_frame w instances e e'.name hne'
        rw [hp] at hframe
        simp only [instsAfter] at hframe
        rw [hframe] at hlk
        exact hv e' (List.mem_cons_of_mem _ he') o hlk
      have hevs : evs.all (fun ev => !isRead ev.op || (ev.observed == none) ||
          (ev.observed == some 100)) = true := by
        cases hl : lookupKey instances e.name with
        | none =>
          by_cases h1 : e.name = "dict" ∨ e.name = "Attrs"
          · rw [processLib_no_instance w instances e hl h1] at hp
            simp only [Option.some.injEq, Prod.mk.injEq] at hp
            rw [← hp.2.1]
            rfl
          · push_neg at h1
            rw [processLib_skip w instances e hl h1.1 h1.2] at hp
            exact absurd hp (by simp)
        | some o =>
          have h100 : getL3 o = 100 := hv e (List.mem_cons_self _ _) o hl
          have hobs := traceEvents_observed w instances e o hl
          rw [hp, h100] at hobs
          simpa [traceEvents] using hobs
      rw [hevs, hrest]
      rfl

theorem tryAdd_100 (a r : Bool) (name : String) (cur l : Insts)
    (h : tryAdd a r name cur = Except.ok l)
    (hc : ∀ p ∈ cur, getL3 p.2 = 100) : ∀ p ∈ l, getL3 p.2 = 100 := by
  unfold tryAdd at h
  split at h
  · split at h
    · exact absurd h (by simp)
    · simp only [Except.ok.injEq] at h
      subst h
      intro p hp
      rcases List.mem_append.mp hp with hp | hp
      · exact hc p hp
      · simp only [List.mem_singleton] at hp
        subst hp
        rfl
  · simp only [Except.ok.injEq] at h
    subst h
    exact hc

theorem buildInstances_100 (w : World) (l : Insts)
    (h : buildInstances w = Except.ok l) : ∀ p ∈ l, getL3 p.2 = 100 := by
  unfold buildInstances at h
  simp only [bind, Except.bind] at h
  have h0 : ∀ p ∈ ([("dict", L1Doc.mk (L2Doc.mk (L3Doc.mk 100)))] : Insts),
      getL3 p.2 = 100 := by
    intro p hp
    simp only [List.mem_singleton] at hp
    subst hp
    rfl
  cases h1 : tryAdd w.avail.lattix (w.ctorRaises "Lattix") "Lattix"
      [("dict", L1Doc.mk (L2Doc.mk (L3Doc.mk 100)))] with
  | error m => rw [h1] at h; exact absurd h (by simp)
  | ok i1 =>
    rw [h1] at h
    dsimp only at h
    have hv1 := tryAdd_100 _ _ _ _ _ h1 h0
    cases h2 : tryAdd w.avail.easydict (w.ctorRaises "EasyDict") "EasyDict" i1 with
    | error m => rw [h2] at h; exact absurd h (by simp)
    | ok i2 =>
      rw [h2] at h
      dsimp only at h
      have hv2 := tryAdd_100 _ _ _ _ _ h2 hv1
      cases h3 : tryAdd w.avail.addict (w.ctorRaises "Addict") "Addict" i2 with
      | error m => rw [h3] at h; exact absurd h (by simp)
      | ok i3 =>
        rw [h3] at h
        dsimp only at h
        have hv3 := tryAdd_100 _ _ _ _ _ h3 hv2
        cases h4 : tryAdd w.avail.box (w.ctorRaises "Box") "Box" i3 with
        | error m => rw [h4] at h; exact absurd h (by simp)
        | ok i4 =>
          rw [h4] at h
          dsimp only at h
          have hv4 := tryAdd_100 _ _ _ _ _ h4 hv3
          cases h5 : tryAdd w.avail.treedict (w.ctorRaises "TreeDict") "TreeDict" i4 with
          | error m => rw [h5] at h; exact absurd h (by simp)
          | ok i5 =>
            rw [h5] at h
            dsimp only at h
            have hv5 := tryAdd_100 _ _ _ _ _ h5 hv4
            cases hatt : w.avail.attrs with
            | false =>
              rw [hatt] at h
              simp at h
            | true =>
              rw [hatt] at h
              rw [if_pos rfl] at h
              cases h6 : tryAdd true (w.ctorRaises "Attrs") "Attrs" i5 with
              | error m => rw [h6] at h; exact absurd h (by simp)
              | ok i6 =>
                rw [h6] at h
                dsimp only at h
                have hv6 := tryAdd_100 _ _ _ _ _ h6 hv5
                exact tryAdd_100 _ _ _ _ _ h hv6

theorem libs_names_nodup : (libs.map LibEntry.name).Nodup := by
  decide

theorem benchEvents_observed (w : World) :
    (benchEvents w).all
      (fun ev => !isRead ev.op || (ev.observed == none) ||
        (ev.observed == some 100)) = true := by
  unfold benchEvents runBenchmark
  cases hb : buildInstances w with
  | error m => rfl
  | ok insts =>
    dsimp only
    apply runLoop_observed w libs insts libs_names_nodup
    intro e _ o hlk
    exact buildInstances_100 w insts hb (e.name, o) (lookupKey_mem insts e.name o hlk)

theorem benchRows_keys (w : World) :
    (benchRows w).all
      (fun r => r.results.map Prod.fst ==
        ["init", "read_k", "read_d", "write_k", "write_d"]) = true := by
  unfold benchRows runBenchmark
  cases hb : buildInstances w with
  | error m => rfl
  | ok insts =>
    dsimp only
    exact runLoop_keys w libs insts

theorem digitChar_isDigit : ∀ d : Nat, d < 10 → (Nat.digitChar d).isDigit = true := by
  decide

theorem frac5_length (n : Nat) : (frac5 n).length = 5 := rfl

theorem frac5_digits (n : Nat) : (frac5 n).data.all Char.isDigit = true := by
  have h10 : (0 : Nat) < 10 := by norm_num
  dsimp only [frac5]
  simp only [List.all_cons, List.all_nil, Bool.and_true]
  rw [digitChar_isDigit _ (Nat.mod_lt _ h10), digitChar_isDigit _ (Nat.mod_lt _ h10),
    digitChar_isDigit _ (Nat.mod_lt _ h10), digitChar_isDigit _ (Nat.mod_lt _ h10),
    digitChar_isDigit _ (Nat.mod_lt _ h10)]
  rfl

theorem formatFixed5_shape (q : ℚ) :
    ∃ ip fp : String, formatFixed5 q = ip ++ "." ++ fp ∧ fp.length = 5 ∧
      fp.data.all Char.isDigit = true :=
  ⟨(if round (q * 100000) < 0 then "-" else "") ++
      toString ((round (q * 100000)).natAbs / 100000),
   frac5 ((round (q * 100000)).natAbs % 100000),
   rfl, frac5_length _, frac5_digits _⟩

/-- C1: the claim says a registered implementation whose constructor always
raises still yields a report row with Init = N/A and four N/A cells, and that
no measurement error is ever fatal.  The code contradicts this: the
module-level `instances[name] = Ctor(raw_data)` assignments are not guarded
by any exception handler, so in a world where the Lattix constructor always
raises the whole process aborts with the uncaught exception before any row is
printed. -/
theorem c1_crash_on_raising_ctor :
    runBenchmark lattixCrashWorld = Except.error "exception: Lattix(raw_data)" := by
  rfl

/-- C2: the claim says an implementation whose optional library is not
importable is excluded from the active set and the run proceeds normally.
The code contradicts this for `attrs`: the import guard sets `define = None`
on ImportError but never defines `AttrsL1`, so the module-level guard
`if AttrsL1:` raises NameError and aborts the process. -/
theorem c2_crash_on_missing_attrs :
    runBenchmark attrsMissingWorld =
      Except.error "NameError: name AttrsL1 is not defined" := by
  rfl

/-- C3: the timing primitive never propagates an exception: for every
operation statement, setup statement and binding context, if the execution
raises at any point the result is the sentinel `none`; otherwise it is the
total elapsed duration of exactly `ITER_N` repetitions. -/
theorem c3_run_never_propagates {σ : Type} (stmt setup : σ → TRes σ) (s : σ) :
    (run stmt setup s).1 =
      if execRaises stmt setup s then none
      else some (repeatElapsed stmt ITER_N (postSetup setup s)) :=
  run_eq_ite stmt setup s

/-- C4 (counterexample): the claim says operations are timed in the order
key read, key write, dot read, dot write, with the key write before the dot
read.  At a concrete both-styles implementation the timed order is
Init, ReadKey, ReadDot, WriteKey, WriteDot: the key write is NOT timed before
the dot read. -/
theorem c4_counterexample :
    easyEntry.support_key = true ∧ easyEntry.support_dot = true ∧
    (traceEvents (processLib w0 demoInsts1 easyEntry)).map Event.op =
      [Op.init, Op.readK, Op.readD, Op.writeK, Op.writeD] ∧
    ¬ (((traceEvents (processLib w0 demoInsts1 easyEntry)).map Event.op).indexOf
          Op.writeK <
        ((traceEvents (processLib w0 demoInsts1 easyEntry)).map Event.op).indexOf
          Op.readD) := by
  have ht := traceEvents_processLib w0 demoInsts1 easyEntry raw_data rfl
  refine ⟨rfl, rfl, ?_, ?_⟩
  · rw [ht]; rfl
  · rw [ht]; decide

/-- C4 (amended): for every implementation with supports_key = true and
supports_dot = true whose instance is present, the runner times operations in
the order key read, dot read, key write, dot write — in particular the dot
read is timed before the key write. -/
theorem c4_amended (w : World) (instances : Insts) (e : LibEntry) (o : L1Doc)
    (h : lookupKey instances e.name = some o)
    (hk : e.support_key = true) (hd : e.support_dot = true) :
    (traceEvents (processLib w instances e)).map Event.op =
      [Op.init, Op.readK, Op.readD, Op.writeK, Op.writeD] := by
  rw [traceEvents_processLib w instances e o h, hk, hd]
  rfl

theorem c4_amended_witness :
    lookupKey demoInsts1 easyEntry.name = some raw_data ∧
      easyEntry.support_key = true ∧ easyEntry.support_dot = true ∧
      (traceEvents (processLib w0 demoInsts1 easyEntry)).map Event.op =
        [Op.init, Op.readK, Op.readD, Op.writeK, Op.writeD] :=
  ⟨rfl, rfl, rfl, c4_amended w0 demoInsts1 easyEntry raw_data rfl rfl rfl⟩

/-- C5: for every implementation, in its timing trace no timed read occurs at
or after a timed write (reads are measured before writes on the shared
long-lived instance), and in a full benchmark run every timed read that
completes observes the pre-write value 100. -/
theorem c5_reads_before_writes_observe_100 :
    (∀ (w : World) (instances : Insts) (e : LibEntry),
      noReadAfterWrite ((traceEvents (processLib w instances e)).map Event.op)
        = true) ∧
    (∀ w : World, (benchEvents w).all
      (fun ev => !isRead ev.op || (ev.observed == none) ||
        (ev.observed == some 100)) = true) :=
  ⟨processLib_no_read_after_write, benchEvents_observed⟩

/-- C6: every active implementation (every row the loop emits, for any
registry and any full run) carries exactly five MeasurementResults, one per
operation, in the fixed insertion order Init, ReadKey, ReadDot, WriteKey,
WriteDot — even when values are not applicable. -/
theorem c6_five_results_fixed_order :
    (∀ (w : World) (instances : Insts) (entries : List LibEntry),
      ((runLoop w instances entries).1).all
        (fun r => r.results.map Prod.fst ==
          ["init", "read_k", "read_d", "write_k", "write_d"]) = true) ∧
    (∀ w : World, (benchRows w).all
      (fun r => r.results.map Prod.fst ==
        ["init", "read_k", "read_d", "write_k", "write_d"]) = true) :=
  ⟨fun w instances entries => runLoop_keys w entries instances, benchRows_keys⟩

/-- C7: for every implementation with supports_key = false the ReadKey and
WriteKey cells are not applicable, and for every implementation with
supports_dot = false the ReadDot and WriteDot cells are not applicable —
regardless of whether an instance exists. -/
theorem c7_unsupported_cells_na (w : World) (instances : Insts) (e : LibEntry) :
    (e.support_key = false →
      cellOf (processLib w instances e) "read_k" = none ∧
        cellOf (processLib w instances e) "write_k" = none) ∧
    (e.support_dot = false →
      cellOf (processLib w instances e) "read_d" = none ∧
        cellOf (processLib w instances e) "write_d" = none) :=
  ⟨processLib_cells_no_key w instances e, processLib_cells_no_dot w instances e⟩

theorem c7_unsupported_cells_na_witness :
    attrsEntry.support_key = false ∧
      (cellOf (processLib w0 demoInsts1 attrsEntry) "read_k" = none ∧
        cellOf (processLib w0 demoInsts1 attrsEntry) "write_k" = none) :=
  ⟨rfl, (c7_unsupported_cells_na w0 demoInsts1 attrsEntry).1 rfl⟩

/-- C8: running the benchmark loop body for one implementation leaves every
other implementation's constructed instance unchanged in the instances map
(the fixed input document is an immutable constant in the model, and each
instance is constructed as its own copy of it). -/
theorem c8_frame_other_instances (w : World) (instances : Insts) (e : LibEntry)
    (n : String) (hn : n ≠ e.name) :
    lookupKey (instsAfter (processLib w instances e) instances) n =
      lookupKey instances n :=
  processLib_frame w instances e n hn

theorem c8_frame_other_instances_witness :
    "dict" ≠ lattixEntry.name ∧
      lookupKey (instsAfter (processLib w0 demoInsts2 lattixEntry) demoInsts2)
          "dict" = lookupKey demoInsts2 "dict" :=
  ⟨by decide, c8_frame_other_instances w0 demoInsts2 lattixEntry "dict" (by decide)⟩

/-- C9: the report formatter renders an absent measurement as the literal
`N/A` marker and a present value as a number with exactly five fractional
digits, and the table header names the columns
Library, Init, Read(K), Read(D), Write(K), Write(D). -/
theorem c9_format_contract :
    format_res none = "N/A" ∧
    (∀ q : ℚ, ∃ ip fp : String, format_res (some q) = ip ++ "." ++ fp ∧
      fp.length = 5 ∧ fp.data.all Char.isDigit = true) ∧
    headerLine =
      "Library      | Init     | Read(K)  | Read(D)  | Write(K) | Write(D)" :=
  ⟨rfl, fun q => formatFixed5_shape q, rfl⟩

/-- C10: a registry entry whose name has no entry in the instances map is
skipped without producing a row — except the names dict and Attrs, which are
still processed: their row exists, its Init cell is whatever the timed init
statement produced, and all four read/write cells are not applicable because
the instance lookup yields None. -/
theorem c10_skip_except_dict_attrs (w : World) (instances : Insts)
    (e : LibEntry) (h : lookupKey instances e.name = none) :
    (e.name ≠ "dict" → e.name ≠ "Attrs" → processLib w instances e = none) ∧
    (e.name = "dict" ∨ e.name = "Attrs" →
      processLib w instances e ≠ none ∧
      cellOf (processLib w instances e) "init" =
        (run (initStmtSem w e.name) noopStmt ()).1 ∧
      cellOf (processLib w instances e) "read_k" = none ∧
      cellOf (processLib w instances e) "read_d" = none ∧
      cellOf (processLib w instances e) "write_k" = none ∧
      cellOf (processLib w instances e) "write_d" = none) := by
  constructor
  · intro h1 h2
    exact processLib_skip w instances e h h1 h2
  · intro hn
    rw [processLib_no_instance w instances e h hn]
    exact ⟨by simp, rfl, rfl, rfl, rfl, rfl⟩

theorem c10_skip_except_dict_attrs_witness :
    lookupKey ([] : Insts) dictEntry.name = none ∧
      (processLib w0 [] dictEntry ≠ none ∧
        cellOf (processLib w0 [] dictEntry) "init" =
          (run (initStmtSem w0 dictEntry.name) noopStmt ()).1 ∧
        cellOf (processLib w0 [] dictEntry) "read_k" = none ∧
        cellOf (processLib w0 [] dictEntry) "read_d" = none ∧
        cellOf (processLib w0 [] dictEntry) "write_k" = none ∧
        cellOf (processLib w0 [] dictEntry) "write_d" = none) :=
  ⟨rfl, (c10_skip_except_dict_attrs w0 [] dictEntry rfl).2 (Or.inl rfl)⟩

end PyLattix
